import Mathlib

/-!
Verification of the generic filter-driven document access layer of the
demo-store order service (`src/elasticsearch/elasticsearch.service.ts`).

JavaScript objects are embedded as association lists `List (String × Json)`
in insertion order (JS object keys are unique and iterate in insertion
order; `Object.entries` is the list itself).  JS `null` and `undefined` are
treated identically by every code path modelled here (both are skipped or
filtered with the same test), so a single `Json.null` constructor stands
for both.  Numeric payload values are opaque to this layer, so they are
embedded as integers.
-/

namespace DemoStore

/-- A JSON-like value, as handled by the service (scalars, arrays, objects). -/
inductive Json where
  | null : Json
  | boolean : Bool → Json
  | num : Int → Json
  | str : String → Json
  | arr : List Json → Json
  | obj : List (String × Json) → Json

/-- The test `value === undefined || value === null` (and its negation
`value !== undefined && value !== null`): JS null and undefined are both
embedded as `Json.null`. -/
def Json.isNull : Json → Bool
  | Json.null => true
  | _ => false

/-- The blank test used throughout (`!s || s.trim() === ''`): a string is
blank exactly when every character is whitespace — the empty string (JS
falsy) included. -/
def isBlank (s : String) : Bool := s.data.all Char.isWhitespace

/-- JS property assignment `o[k] = v` / object-literal override semantics:
an existing key keeps its position and gets the new value, a new key is
appended at the end. -/
def objSet (o : List (String × Json)) (k : String) (v : Json) : List (String × Json) :=
  if o.any (fun p => p.1 = k) then
    o.map (fun p => if p.1 = k then (k, v) else p)
  else
    o ++ [(k, v)]

/-- `fullKey.replace(/\./g, '_')` from `flattenObjectAndBuildScript`:
every dot of the flattened path becomes an underscore. -/
def toParamName (fullKey : String) : String :=
  String.mk (fullKey.data.map (fun c => if c = '.' then '_' else c))

/-- The Painless script line pushed for one leaf field:
`ctx._source.<fullKey> = params.<paramName>;`. -/
def scriptLine (fullKey paramName : String) : String :=
  "ctx._source." ++ fullKey ++ " = params." ++ paramName ++ ";"

/-- `prefix ? prefix + '.' + key : key` (empty string is falsy in JS). -/
def fullKeyOf (pre key : String) : String :=
  if pre = "" then key else pre ++ "." ++ key

/-- `flattenObjectAndBuildScript(obj, scriptLines, params, prefix)`:
walks the entries in order; skips `null`/`undefined` values; recurses into
nested (non-array) objects extending the prefix; for a scalar or array leaf
pushes one script line and records the value under the underscored
parameter name.  The two accumulators model the arrays/records the source
mutates in place. -/
def flattenObjectAndBuildScript :
    List (String × Json) → List String → List (String × Json) → String →
      List String × List (String × Json)
  | [], scriptLines, params, _pre => (scriptLines, params)
  | (key, value) :: rest, scriptLines, params, pre =>
    match value with
    | Json.null => flattenObjectAndBuildScript rest scriptLines params pre
    | Json.obj fields =>
      match flattenObjectAndBuildScript fields scriptLines params (fullKeyOf pre key) with
      | (scriptLines2, params2) => flattenObjectAndBuildScript rest scriptLines2 params2 pre
    | v =>
      flattenObjectAndBuildScript rest
        (scriptLines ++ [scriptLine (fullKeyOf pre key) (toParamName (fullKeyOf pre key))])
        (objSet params (toParamName (fullKeyOf pre key)) v) pre
termination_by l _ _ _ => sizeOf l
decreasing_by all_goals (simp_wf; try omega)

/-- The (path, value) pairs of the non-null leaf (scalar or array) values of
a nested object, paths dot-joined, null/undefined skipped at any depth.
This is the specification-side reading of the script builder, used to state
what the accumulator-passing source function produces. -/
def leafEntriesList :
    List (String × Json) → String → List (String × Json)
  | [], _pre => []
  | (key, value) :: rest, pre =>
    match value with
    | Json.null => leafEntriesList rest pre
    | Json.obj fields =>
      leafEntriesList fields (fullKeyOf pre key) ++ leafEntriesList rest pre
    | v => (fullKeyOf pre key, v) :: leafEntriesList rest pre
termination_by l _ => sizeOf l
decreasing_by all_goals (simp_wf; try omega)

/-! ## Query construction (`QueryDslQueryContainer`) -/

/-- The shapes of query this layer emits: an `ids` identity clause, an exact
`term` clause, or a `bool.must` conjunction. -/
inductive EsQuery where
  | ids : List String → EsQuery
  | term : String → Json → EsQuery
  | boolMust : List EsQuery → EsQuery

/-- Outcome of the query-construction block shared (by duplication) between
`updateByFilter` and `deleteByFilter`: the early `return this.INVALID_NUMBER`
for a missing/empty filter, the thrown
`BadRequestException('Provided filter fields are all empty !!')`, or the
built query. -/
inductive QueryBuildResult where
  | sentinel : QueryBuildResult
  | invalidInput : QueryBuildResult
  | ok : EsQuery → QueryBuildResult

/-- The query-construction block of `updateByFilter` (service lines
320-360), transcribed as is: empty filter short-circuits to the sentinel
return; a non-null, non-blank string `filter['id']` contributes an `ids`
clause; every other non-null entry contributes a `term` clause; zero
clauses raise the invalid-input rejection; one clause is returned bare;
several are wrapped in `bool.must`. -/
def buildEsQueryUpdate (filter : List (String × Json)) : QueryBuildResult :=
  if filter.length = 0 then QueryBuildResult.sentinel
  else
    let idParts : List EsQuery :=
      match filter.lookup "id" with
      | some (Json.str s) => if isBlank s = false then [EsQuery.ids [s]] else []
      | _ => []
    let otherFilterEntries :=
      filter.filter (fun kv => kv.1 != "id" && !kv.2.isNull)
    let queryParts :=
      idParts ++ otherFilterEntries.map (fun kv => EsQuery.term kv.1 kv.2)
    match queryParts with
    | [] => QueryBuildResult.invalidInput
    | [q] => QueryBuildResult.ok q
    | qs => QueryBuildResult.ok (EsQuery.boolMust qs)

/-- The query-construction block of `deleteByFilter` (service lines
438-478), a verbatim duplicate of the one in `updateByFilter`, transcribed
separately so that their agreement is a theorem and not a modelling
choice. -/
def buildEsQueryDelete (filter : List (String × Json)) : QueryBuildResult :=
  if filter.length = 0 then QueryBuildResult.sentinel
  else
    let idParts : List EsQuery :=
      match filter.lookup "id" with
      | some (Json.str s) => if isBlank s = false then [EsQuery.ids [s]] else []
      | _ => []
    let otherFilterEntries :=
      filter.filter (fun kv => kv.1 != "id" && !kv.2.isNull)
    let queryParts :=
      idParts ++ otherFilterEntries.map (fun kv => EsQuery.term kv.1 kv.2)
    match queryParts with
    | [] => QueryBuildResult.invalidInput
    | [q] => QueryBuildResult.ok q
    | qs => QueryBuildResult.ok (EsQuery.boolMust qs)

mutual

/-- Modelled from the spec: evaluation of a produced query by the document
store against a document with identity `docId`.  The store itself is not
part of the repository; per the spec, an `ids` clause matches exactly the
documents whose identity is listed, a `bool.must` conjunction matches when
all its clauses match, and exact-term evaluation is abstracted as an
arbitrary predicate `tev` on (field, value, docId). -/
def docMatches (tev : String → Json → String → Bool) (docId : String) :
    EsQuery → Bool
  | EsQuery.ids values => values.contains docId
  | EsQuery.term f v => tev f v docId
  | EsQuery.boolMust clauses => docMatchesAll tev docId clauses
termination_by q => sizeOf q
decreasing_by all_goals (simp_wf; try omega)

/-- `bool.must` semantics: every clause matches (see `docMatches`). -/
def docMatchesAll (tev : String → Json → String → Bool) (docId : String) :
    List EsQuery → Bool
  | [] => true
  | c :: rest => docMatches tev docId c && docMatchesAll tev docId rest
termination_by l => sizeOf l
decreasing_by all_goals (simp_wf; try omega)

end

/-! ## The data operations of `ElasticsearchService`

Each operation is a pure function of its arguments, the service's
readiness flag (`this.initialized`; before `onModuleInit` completes the
`esClient` field is still unset), and an oracle describing what the
store's client call would produce.  Each mutating operation also returns
the list of store calls it issued, so "no call was made" is a provable
statement. -/

/-- `private INVALID_NUMBER = -1`. -/
def INVALID_NUMBER : Int := -1

/-- What the store's `updateByQuery`/`deleteByQuery` call produces:
no response object (`!response`), a response whose `updated`/`deleted`
count may be absent, or a thrown error with a message. -/
inductive StoreReply where
  | noResponse : StoreReply
  | ok : Option Nat → StoreReply
  | err : String → StoreReply

/-- The observable outcome of `updateByFilter`/`deleteByFilter`: a thrown
`BadRequestException`, a thrown `InternalServerErrorException`, or a
returned number. -/
inductive OpResult where
  | badRequest : String → OpResult
  | internalServerError : String → OpResult
  | retNum : Int → OpResult

/-- The `Script` sent with `updateByQuery`: joined source lines and the
out-of-band parameter table. -/
structure EsScript where
  source : String
  params : List (String × Json)

/-- One `updateByQuery` request as built by the service. -/
structure UpdateByQueryCall where
  index : String
  query : EsQuery
  script : EsScript
  refresh : Bool

/-- One `deleteByQuery` request as built by the service. -/
structure DeleteByQueryCall where
  index : String
  query : EsQuery
  refresh : Bool

/-- The runtime error message produced by dereferencing the unset
`this.esClient` before initialization, as wrapped by the catch block. -/
def uninitClientError (method : String) : String :=
  "Cannot read properties of undefined (reading " ++ method ++ ")"

/-- `updateByFilter(filter, updateData, indexName)` transcribed: blank
index name and empty update data are rejected first; an empty filter
returns the sentinel with no store call; an all-empty filter is rejected;
then the script is built and, if empty after null-filtering, rejected;
finally the `updateByQuery` call is issued (`refresh: true`) and the
response mapped — a missing response, a missing `updated` count, and a
zero `updated` count (JS falsy) all return the sentinel, a positive count
is returned, and a thrown store error is wrapped.  Before initialization
the client dereference itself throws and is wrapped by the same catch. -/
def updateByFilter (initialized : Bool) (filter updateData : List (String × Json))
    (indexName : String) (reply : StoreReply) : OpResult × List UpdateByQueryCall :=
  if isBlank indexName then
    (OpResult.badRequest "Elasticsearch index name cannot be empty or null.", [])
  else if updateData.length = 0 then
    (OpResult.badRequest "Update data cannot be empty or null.", [])
  else
    match buildEsQueryUpdate filter with
    | QueryBuildResult.sentinel => (OpResult.retNum INVALID_NUMBER, [])
    | QueryBuildResult.invalidInput =>
      (OpResult.badRequest "Provided filter fields are all empty !!", [])
    | QueryBuildResult.ok esQuery =>
      let built := flattenObjectAndBuildScript updateData [] [] ""
      if built.1.length = 0 then
        (OpResult.badRequest "Update data contains no valid fields to update after processing.", [])
      else
        let esScript : EsScript := ⟨String.intercalate " " built.1, built.2⟩
        if initialized then
          let call : UpdateByQueryCall := ⟨indexName, esQuery, esScript, true⟩
          match reply with
          | StoreReply.err msg =>
            (OpResult.internalServerError
              ("Failed to update documents in index [" ++ indexName ++ "] by filter: " ++ msg),
             [call])
          | StoreReply.noResponse => (OpResult.retNum INVALID_NUMBER, [call])
          | StoreReply.ok none => (OpResult.retNum INVALID_NUMBER, [call])
          | StoreReply.ok (some n) =>
            if n = 0 then (OpResult.retNum INVALID_NUMBER, [call])
            else (OpResult.retNum (Int.ofNat n), [call])
        else
          (OpResult.internalServerError
            ("Failed to update documents in index [" ++ indexName ++ "] by filter: "
              ++ uninitClientError "'updateByQuery'"),
           [])

/-- `deleteByFilter(filter, indexName)` transcribed: blank index name is
rejected; an empty filter returns the sentinel with no store call; an
all-empty filter is rejected; then the `deleteByQuery` call is issued
(`refresh: true`) and the response mapped exactly as in `updateByFilter`
but over the `deleted` count. -/
def deleteByFilter (initialized : Bool) (filter : List (String × Json))
    (indexName : String) (reply : StoreReply) : OpResult × List DeleteByQueryCall :=
  if isBlank indexName then
    (OpResult.badRequest "Elasticsearch index name cannot be empty or null.", [])
  else
    match buildEsQueryDelete filter with
    | QueryBuildResult.sentinel => (OpResult.retNum INVALID_NUMBER, [])
    | QueryBuildResult.invalidInput =>
      (OpResult.badRequest "Provided filter fields are all empty !!", [])
    | QueryBuildResult.ok esQuery =>
      if initialized then
        let call : DeleteByQueryCall := ⟨indexName, esQuery, true⟩
        match reply with
        | StoreReply.err msg =>
          (OpResult.internalServerError
            ("Failed to delete documents in index [" ++ indexName ++ "] by filter: " ++ msg),
           [call])
        | StoreReply.noResponse => (OpResult.retNum INVALID_NUMBER, [call])
        | StoreReply.ok none => (OpResult.retNum INVALID_NUMBER, [call])
        | StoreReply.ok (some n) =>
          if n = 0 then (OpResult.retNum INVALID_NUMBER, [call])
          else (OpResult.retNum (Int.ofNat n), [call])
      else
        (OpResult.internalServerError
          ("Failed to delete documents in index [" ++ indexName ++ "] by filter: "
            ++ uninitClientError "'deleteByQuery'"),
         [])

/-! ## `getItemById`, `getAllItems`, `indexDocument` and the store model -/

/-- What the store's `get` call produces: a found response carrying `_id`
and `_source`, a response with `found: false`, or a thrown error carrying
an optional HTTP status code and a message. -/
inductive GetReply where
  | found : String → List (String × Json) → GetReply
  | notFound : GetReply
  | errStatus : Option Nat → String → GetReply

/-- The observable outcome of `getItemById`: a thrown
`BadRequestException`, a thrown `InternalServerErrorException`, the `null`
return, or the materialized item. -/
inductive GetResult where
  | badRequest : String → GetResult
  | internalServerError : String → GetResult
  | nullResult : GetResult
  | item : List (String × Json) → GetResult

/-- `{ id: docId, ...dtoInstance }`: the object literal built for a found
document.  `plainToInstance` on a plain record is the identity on its
fields, so the spread writes every `_source` field over the initial `id`
binding — in particular a `_source` field named `id` overwrites the
store-assigned identity. -/
def mkItemWithId (docId : String) (src : List (String × Json)) :
    List (String × Json) :=
  src.foldl (fun acc kv => objSet acc kv.1 kv.2) [("id", Json.str docId)]

/-- `getItemById(id, indexName, returnType)` transcribed: blank id and
blank index name are rejected; a `found: false` response returns `null`;
a found response is materialized via `mkItemWithId`; a thrown store error
with status 404 returns `null`; any other thrown error is wrapped into an
internal failure that keeps the original message.  Before initialization
the client dereference throws (no status code), so it lands in the wrap
branch. -/
def getItemById (initialized : Bool) (id indexName : String)
    (reply : GetReply) : GetResult :=
  if isBlank id then
    GetResult.badRequest "Document ID cannot be empty or null."
  else if isBlank indexName then
    GetResult.badRequest "Elasticsearch index name cannot be empty or null."
  else if initialized then
    match reply with
    | GetReply.found docId src => GetResult.item (mkItemWithId docId src)
    | GetReply.notFound => GetResult.nullResult
    | GetReply.errStatus status msg =>
      if status = some 404 then GetResult.nullResult
      else
        GetResult.internalServerError
          ("Failed to fetch item with ID [" ++ id ++ "] from index ["
            ++ indexName ++ "]: " ++ msg)
  else
    GetResult.internalServerError
      ("Failed to fetch item with ID [" ++ id ++ "] from index ["
        ++ indexName ++ "]: " ++ uninitClientError "'get'")

/-- Modelled from the spec: the document store holds, per identity, the
`_source` the document was indexed with (spec §6: index-document → identity,
get-by-id → found-flag + source).  The store itself is not part of the
repository. -/
structure EsStore where
  docs : List (String × List (String × Json))

/-- Modelled from the spec: indexing appends the document verbatim under
the store-chosen identity. -/
def storeIndexDocument (st : EsStore) (docId : String)
    (document : List (String × Json)) : EsStore :=
  ⟨st.docs ++ [(docId, document)]⟩

/-- Modelled from the spec: `get` answers with the stored `_source` for a
known identity and with `found: false` otherwise. -/
def storeGet (st : EsStore) (docId : String) : GetReply :=
  match st.docs.lookup docId with
  | some src => GetReply.found docId src
  | none => GetReply.notFound

/-- The observable outcome of `indexDocument`: the response (carrying the
store-assigned `_id`) together with the new store state, or a rethrown
error. -/
inductive IndexResult where
  | thrown : String → IndexResult
  | indexed : String → EsStore → IndexResult

/-- `indexDocument(indexName, document)` transcribed: no validation, no
readiness check — the document is handed to the client and the response
returned; errors are logged and rethrown unchanged.  `assignedId` is the
identity the store chooses for the new document (an oracle input).
Before initialization the client dereference throws. -/
def indexDocument (initialized : Bool) (indexName : String)
    (document : List (String × Json)) (st : EsStore) (assignedId : String) :
    IndexResult :=
  if initialized then
    IndexResult.indexed assignedId (storeIndexDocument st assignedId document)
  else
    IndexResult.thrown (uninitClientError "'index'")

/-- What the store's `search` call produces: the hit list (each hit has an
optional `_id` and a `_source`) or a thrown error. -/
inductive SearchReply where
  | hits : List (Option String × List (String × Json)) → SearchReply
  | err : String → SearchReply

/-- The observable outcome of `getAllItems`. -/
inductive SearchResult where
  | badRequest : String → SearchResult
  | internalServerError : String → SearchResult
  | items : List (List (String × Json)) → SearchResult

/-- `getAllItems(indexName, returnType, size)` transcribed: blank index
name is rejected; each hit is materialized as `{ id: hit._id || '', ...dto }`;
store errors are wrapped into an internal failure keeping the message.
Before initialization the client dereference throws and is wrapped. -/
def getAllItems (initialized : Bool) (indexName : String) (_size : Nat)
    (reply : SearchReply) : SearchResult :=
  if isBlank indexName then
    SearchResult.badRequest "Elasticsearch index name cannot be empty or null !!"
  else if initialized then
    match reply with
    | SearchReply.hits hs =>
      SearchResult.items
        (hs.map (fun hit => mkItemWithId (hit.1.getD "") hit.2))
    | SearchReply.err msg =>
      SearchResult.internalServerError
        ("Failed to fetch items from index \x22" ++ indexName ++ "\x22: " ++ msg)
  else
    SearchResult.internalServerError
      ("Failed to fetch items from index \x22" ++ indexName ++ "\x22: "
        ++ uninitClientError "'search'")

/-! ## General lemmas -/

/-- The two duplicated query-construction blocks are the same function. -/
theorem buildEsQuery_delete_eq_update :
    ∀ filter : List (String × Json),
      buildEsQueryDelete filter = buildEsQueryUpdate filter :=
  fun _ => rfl

/-- `objSet` on a fresh key appends. -/
theorem objSet_append (o : List (String × Json)) (k : String) (v : Json)
    (h : ∀ p ∈ o, p.1 ≠ k) : objSet o k v = o ++ [(k, v)] := by
  have hno : ¬ (o.any (fun p => p.1 = k)) = true := by
    simp only [List.any_eq_true, decide_eq_true_eq]
    rintro ⟨p, hp, hpk⟩
    exact h p hp hpk
  unfold objSet
  rw [if_neg hno]

/-- A key absent from every entry is not found by `List.lookup`. -/
theorem lookup_eq_none_of_keys (l : List (String × Json)) (k : String)
    (h : ∀ kv ∈ l, kv.1 ≠ k) : l.lookup k = none := by
  induction l with
  | nil => rfl
  | cons kv rest ih =>
    have hk : (k == kv.1) = false := by
      have := h kv (List.mem_cons_self kv rest)
      simp only [beq_eq_false_iff_ne, ne_eq]
      exact fun he => this he.symm
    obtain ⟨k1, v1⟩ := kv
    simp only [List.lookup, hk]
    exact ih fun kv hkv => h kv (List.mem_cons_of_mem _ hkv)

/-- A found key means the list is non-empty. -/
theorem ne_nil_of_lookup_eq_some {l : List (String × Json)} {k : String}
    {v : Json} (h : l.lookup k = some v) : l ≠ [] := by
  intro he
  rw [he] at h
  exact Option.noConfusion h

/-- What the accumulator-passing script builder produces: the script lines
of all non-null leaves in order, and the parameter table folded over the
same leaves with the underscored names. -/
theorem flattenObjectAndBuildScript_spec (l : List (String × Json))
    (sl : List String) (ps : List (String × Json)) (pre : String) :
    flattenObjectAndBuildScript l sl ps pre =
      (sl ++ (leafEntriesList l pre).map (fun e => scriptLine e.1 (toParamName e.1)),
       (leafEntriesList l pre).foldl (fun acc e => objSet acc (toParamName e.1) e.2) ps) := by
  induction l, sl, ps, pre using flattenObjectAndBuildScript.induct
  case case1 => simp [flattenObjectAndBuildScript, leafEntriesList]
  case case2 => simp_all [flattenObjectAndBuildScript, leafEntriesList]
  case case3 =>
    rename_i key rest sl ps pre fields sl2 ps2 heq ihf ihr
    rw [ihf] at heq
    cases heq
    simp only [flattenObjectAndBuildScript]
    rw [ihf]
    dsimp only
    rw [ihr]
    simp [leafEntriesList, List.append_assoc, List.foldl_append]
  case case4 =>
    rename_i key rest sl ps pre value hne hno ih
    simp only [flattenObjectAndBuildScript]
    rw [ih]
    cases value with
    | null => exact absurd rfl hne
    | boolean b => simp [leafEntriesList]
    | num n => simp [leafEntriesList]
    | str s => simp [leafEntriesList]
    | arr xs => simp [leafEntriesList]
    | obj fs => exact absurd rfl (hno fs)

/-! ## Claims -/

/-- C10: for every filter object, the query-construction block of
`deleteByFilter` computes exactly what the block of `updateByFilter`
computes — the same empty-filter sentinel, the same identity clause, the
same per-field term clauses, the same all-blank invalid-input rejection,
and the same single-clause/conjunction shape. -/
theorem C10_delete_and_update_query_construction_agree :
    ∀ filter : List (String × Json),
      buildEsQueryDelete filter = buildEsQueryUpdate filter :=
  fun filter => buildEsQuery_delete_eq_update filter

/-- C6: the script builder emits exactly one assignment operation per
non-null leaf (scalar or array) value — the path is the dot-joined key
path, the parameter name is the path with dots replaced by underscores,
and null/undefined fields are skipped at any depth; in particular
flattening `{a: {b: 1, c: null}, d: 2}` yields exactly the two operations
for paths `a.b` and `d`. -/
theorem C6_script_builder_one_op_per_leaf :
    (∀ updateData : List (String × Json),
      flattenObjectAndBuildScript updateData [] [] "" =
        ((leafEntriesList updateData "").map (fun e => scriptLine e.1 (toParamName e.1)),
         (leafEntriesList updateData "").foldl
           (fun acc e => objSet acc (toParamName e.1) e.2) [])) ∧
    leafEntriesList
        [("a", Json.obj [("b", Json.num 1), ("c", Json.null)]), ("d", Json.num 2)] "" =
      [("a.b", Json.num 1), ("d", Json.num 2)] ∧
    flattenObjectAndBuildScript
        [("a", Json.obj [("b", Json.num 1), ("c", Json.null)]), ("d", Json.num 2)] [] [] "" =
      (["ctx._source.a.b = params.a_b;", "ctx._source.d = params.d;"],
       [("a_b", Json.num 1), ("d", Json.num 2)]) := by
  refine ⟨fun updateData => ?_, ?_, ?_⟩
  · simpa using flattenObjectAndBuildScript_spec updateData [] [] ""
  · simp [leafEntriesList, fullKeyOf]
  · simp [flattenObjectAndBuildScript, fullKeyOf, toParamName, scriptLine, objSet]

/-- C7 counterexample: the paths `a.b` (from a nested key) and `a_b` (from
a key that itself contains an underscore) are distinct but collapse to the
same parameter name, and the parameter value recorded for `a.b` is then
overwritten by the value for `a_b` — only one parameter entry survives. -/
theorem C7_counterexample_param_name_collision :
    ("a.b" : String) ≠ "a_b" ∧
    toParamName "a.b" = toParamName "a_b" ∧
    leafEntriesList [("a", Json.obj [("b", Json.num 1)]), ("a_b", Json.num 2)] "" =
      [("a.b", Json.num 1), ("a_b", Json.num 2)] ∧
    flattenObjectAndBuildScript
        [("a", Json.obj [("b", Json.num 1)]), ("a_b", Json.num 2)] [] [] "" =
      (["ctx._source.a.b = params.a_b;", "ctx._source.a_b = params.a_b;"],
       [("a_b", Json.num 2)]) := by
  refine ⟨by decide, by decide, ?_, ?_⟩
  · simp [leafEntriesList, fullKeyOf]
  · simp [flattenObjectAndBuildScript, fullKeyOf, toParamName, scriptLine, objSet]

/-- C7 (amended): the dots-to-underscores derivation `toParamName` is
injective on paths that contain no underscore, so as long as no key of the
update object contains an underscore, distinct flattened paths receive
distinct parameter names and no parameter value is overwritten; a key
containing an underscore can break this (see the counterexample). -/
theorem C7_amended_param_names_injective :
    ∀ p1 p2 : String, '_' ∉ p1.data → '_' ∉ p2.data → p1 ≠ p2 →
      toParamName p1 ≠ toParamName p2 := by
  intro p1 p2 h1 h2 hne heq
  apply hne
  have hdata : p1.data.map (fun c => if c = '.' then '_' else c) =
      p2.data.map (fun c => if c = '.' then '_' else c) := by
    have := congrArg String.data heq
    simpa [toParamName] using this
  have hback := congrArg (List.map (fun c => if c = '_' then '.' else c)) hdata
  rw [List.map_map, List.map_map] at hback
  have hid : ∀ (l : List Char), '_' ∉ l →
      l.map ((fun c => if c = '_' then '.' else c) ∘ (fun c => if c = '.' then '_' else c)) = l := by
    intro l hl
    have : ∀ c ∈ l,
        ((fun c => if c = '_' then '.' else c) ∘ (fun c => if c = '.' then '_' else c)) c = c := by
      intro c hc
      by_cases hdot : c = '.'
      · simp [hdot]
      · have hund : c ≠ '_' := fun he => hl (he ▸ hc)
        simp [hdot, hund]
    rw [List.map_congr_left this]
    simp
  rw [hid p1.data h1, hid p2.data h2] at hback
  cases p1
  cases p2
  exact congrArg String.mk hback

/-- Witness for C7 (amended) at the paths of the C6 example. -/
theorem C7_amended_witness : toParamName "a.b" ≠ toParamName "d" :=
  C7_amended_param_names_injective "a.b" "d" (by decide) (by decide) (by decide)

/-- C2 counterexample: with an empty update spec, `updateByFilter` on an
empty filter throws the update-data `BadRequestException` instead of
returning the sentinel — the update-data validation precedes the filter
check. -/
theorem C2_counterexample_empty_update_data :
    updateByFilter true [] [] "orders" (StoreReply.ok none) =
      (OpResult.badRequest "Update data cannot be empty or null.", []) ∧
    (updateByFilter true [] [] "orders" (StoreReply.ok none)).1 ≠
      OpResult.retNum INVALID_NUMBER := by
  constructor
  · rfl
  · intro h
    exact OpResult.noConfusion h

/-- C2 (amended): for every non-empty update spec and non-blank index
name, an empty filter makes `updateByFilter` return the sentinel with no
store call; `deleteByFilter` does so for every non-blank index name. -/
theorem C2_amended_empty_filter_returns_sentinel :
    ∀ (initialized : Bool) (updateData : List (String × Json))
      (indexName : String) (reply : StoreReply),
      isBlank indexName = false → updateData ≠ [] →
      updateByFilter initialized [] updateData indexName reply =
        (OpResult.retNum INVALID_NUMBER, []) ∧
      deleteByFilter initialized [] indexName reply =
        (OpResult.retNum INVALID_NUMBER, []) := by
  intro initialized updateData indexName reply hidx hupd
  constructor
  · simp [updateByFilter, hidx, List.length_eq_zero, hupd, buildEsQueryUpdate]
  · simp [deleteByFilter, hidx, buildEsQueryDelete]

/-- Witness for C2 (amended). -/
theorem C2_amended_witness :
    updateByFilter true [] [("a", Json.num 1)] "orders" (StoreReply.ok none) =
      (OpResult.retNum INVALID_NUMBER, []) ∧
    deleteByFilter true [] "orders" (StoreReply.ok none) =
      (OpResult.retNum INVALID_NUMBER, []) :=
  C2_amended_empty_filter_returns_sentinel true [("a", Json.num 1)] "orders"
    (StoreReply.ok none) (by decide) (List.cons_ne_nil _ _)

/-- C1 counterexample: a store response reporting exactly zero updated
documents makes `updateByFilter` return the sentinel `-1`, not `0` — the
guard `if (!response.updated)` treats the count `0` as falsy. -/
theorem C1_counterexample_zero_updates_returns_sentinel :
    (updateByFilter true [("status", Json.str "active")] [("a", Json.num 1)]
        "orders" (StoreReply.ok (some 0))).1 = OpResult.retNum INVALID_NUMBER ∧
    (updateByFilter true [("status", Json.str "active")] [("a", Json.num 1)]
        "orders" (StoreReply.ok (some 0))).1 ≠ OpResult.retNum 0 := by
  have hidx : isBlank "orders" = false := rfl
  have hb : buildEsQueryUpdate [("status", Json.str "active")] =
      QueryBuildResult.ok (EsQuery.term "status" (Json.str "active")) := rfl
  have h : (updateByFilter true [("status", Json.str "active")] [("a", Json.num 1)]
      "orders" (StoreReply.ok (some 0))).1 = OpResult.retNum INVALID_NUMBER := by
    simp [updateByFilter, hidx, hb, flattenObjectAndBuildScript,
      fullKeyOf, toParamName, scriptLine, objSet]
  refine ⟨h, ?_⟩
  rw [h]
  intro hc
  have := OpResult.retNum.inj hc
  exact absurd this (by decide)

/-- C1 (amended): across `updateByFilter` and `deleteByFilter` the
sentinel `-1` is returned when no filter was supplied, when the response
fails to report a count, and also when the store reports exactly zero
updated/deleted documents; a positive count is returned as-is and `0` is
never returned — callers can distinguish positive counts, the sentinel and
thrown errors, but not zero matches from the sentinel. -/
theorem C1_amended_sentinel_convention :
    ∀ (filter updateData : List (String × Json)) (indexName : String) (q : EsQuery),
      isBlank indexName = false →
      updateData.length ≠ 0 →
      buildEsQueryUpdate filter = QueryBuildResult.ok q →
      (flattenObjectAndBuildScript updateData [] [] "").1 ≠ [] →
      ((updateByFilter true filter updateData indexName (StoreReply.ok (some 0))).1 =
          OpResult.retNum INVALID_NUMBER ∧
        (updateByFilter true filter updateData indexName (StoreReply.ok none)).1 =
          OpResult.retNum INVALID_NUMBER ∧
        (updateByFilter true filter updateData indexName StoreReply.noResponse).1 =
          OpResult.retNum INVALID_NUMBER ∧
        (∀ n : Nat, n ≠ 0 →
          (updateByFilter true filter updateData indexName (StoreReply.ok (some n))).1 =
            OpResult.retNum (Int.ofNat n)) ∧
        (deleteByFilter true filter indexName (StoreReply.ok (some 0))).1 =
          OpResult.retNum INVALID_NUMBER ∧
        (deleteByFilter true filter indexName (StoreReply.ok none)).1 =
          OpResult.retNum INVALID_NUMBER ∧
        (∀ n : Nat, n ≠ 0 →
          (deleteByFilter true filter indexName (StoreReply.ok (some n))).1 =
            OpResult.retNum (Int.ofNat n))) ∧
      (∀ (init : Bool) (f u : List (String × Json)) (i : String) (r : StoreReply),
        (updateByFilter init f u i r).1 ≠ OpResult.retNum 0 ∧
        (deleteByFilter init f i r).1 ≠ OpResult.retNum 0) := by
  intro filter updateData indexName q hidx hupd hq hscript
  have hqd : buildEsQueryDelete filter = QueryBuildResult.ok q := by
    rw [buildEsQuery_delete_eq_update]; exact hq
  constructor
  · refine ⟨?_, ?_, ?_, ?_, ?_, ?_, ?_⟩
    · simp [updateByFilter, hidx, hupd, hq, List.length_eq_zero, hscript]
    · simp [updateByFilter, hidx, hupd, hq, List.length_eq_zero, hscript]
    · simp [updateByFilter, hidx, hupd, hq, List.length_eq_zero, hscript]
    · intro n hn
      simp [updateByFilter, hidx, hupd, hq, List.length_eq_zero, hscript, hn]
    · simp [deleteByFilter, hidx, hqd]
    · simp [deleteByFilter, hidx, hqd]
    · intro n hn
      simp [deleteByFilter, hidx, hqd, hn]
  · intro init f u i r
    constructor
    · unfold updateByFilter
      dsimp only
      repeat' split
      all_goals intro hc
      all_goals
        first
          | exact OpResult.noConfusion hc
          | (have h0 := OpResult.retNum.inj hc
             try unfold INVALID_NUMBER at h0
             try rw [Int.ofNat_eq_natCast] at h0
             omega)
    · unfold deleteByFilter
      dsimp only
      repeat' split
      all_goals intro hc
      all_goals
        first
          | exact OpResult.noConfusion hc
          | (have h0 := OpResult.retNum.inj hc
             try unfold INVALID_NUMBER at h0
             try rw [Int.ofNat_eq_natCast] at h0
             omega)

/-- Witness for C1 (amended). -/
theorem C1_amended_witness :
    (updateByFilter true [("status", Json.str "active")] [("a", Json.num 1)]
        "orders" (StoreReply.ok (some 0))).1 = OpResult.retNum INVALID_NUMBER :=
  ((C1_amended_sentinel_convention [("status", Json.str "active")]
      [("a", Json.num 1)] "orders" (EsQuery.term "status" (Json.str "active"))
      (by decide) (by decide) rfl
      (by simp [flattenObjectAndBuildScript, fullKeyOf, toParamName,
            scriptLine, objSet])).1).1

/-- C4 (code-bug evidence): no data operation consults the readiness flag.
Invoked before initialization, each operation proceeds past its input
validation and fails only on the unset client — `updateByFilter`,
`deleteByFilter`, `getItemById` and `getAllItems` surface a generic
wrapped internal error and `indexDocument` rethrows the raw error; none
produces an explicit "not initialized" rejection. -/
theorem C4_no_not_initialized_failfast :
    updateByFilter false [("id", Json.str "a")] [("x", Json.num 1)] "orders"
        (StoreReply.ok (some 1)) =
      (OpResult.internalServerError
        ("Failed to update documents in index [orders] by filter: "
          ++ uninitClientError "'updateByQuery'"), []) ∧
    deleteByFilter false [("id", Json.str "a")] "orders" (StoreReply.ok (some 1)) =
      (OpResult.internalServerError
        ("Failed to delete documents in index [orders] by filter: "
          ++ uninitClientError "'deleteByQuery'"), []) ∧
    getItemById false "a" "orders" GetReply.notFound =
      GetResult.internalServerError
        ("Failed to fetch item with ID [a] from index [orders]: "
          ++ uninitClientError "'get'") ∧
    indexDocument false "orders" [("x", Json.num 1)] ⟨[]⟩ "abc" =
      IndexResult.thrown (uninitClientError "'index'") ∧
    getAllItems false "orders" 1000 (SearchReply.hits []) =
      SearchResult.internalServerError
        ("Failed to fetch items from index \x22orders\x22: "
          ++ uninitClientError "'search'") := by
  have hs : flattenObjectAndBuildScript [("x", Json.num 1)] [] [] "" =
      (["ctx._source.x = params.x;"], [("x", Json.num 1)]) := by
    simp [flattenObjectAndBuildScript, fullKeyOf, toParamName, scriptLine, objSet]
  refine ⟨?_, rfl, rfl, rfl, rfl⟩
  unfold updateByFilter
  rw [hs]
  rfl

/-- C9: for non-blank id and index name, `getItemById` returns the null
result (never a thrown error) both for a `found: false` response and for a
store error with status 404 — in particular for any store state that holds
no document under the id — while any other store error is wrapped into an
internal failure whose message retains the original one. -/
theorem C9_get_item_by_id_not_found :
    ∀ (id indexName msg : String) (status : Option Nat) (st : EsStore),
      isBlank id = false → isBlank indexName = false →
      (getItemById true id indexName GetReply.notFound = GetResult.nullResult ∧
        (st.docs.lookup id = none →
          getItemById true id indexName (storeGet st id) = GetResult.nullResult) ∧
        getItemById true id indexName (GetReply.errStatus (some 404) msg) =
          GetResult.nullResult ∧
        (status ≠ some 404 →
          getItemById true id indexName (GetReply.errStatus status msg) =
            GetResult.internalServerError
              ("Failed to fetch item with ID [" ++ id ++ "] from index ["
                ++ indexName ++ "]: " ++ msg))) := by
  intro id indexName msg status st hid hidx
  refine ⟨?_, ?_, ?_, ?_⟩
  · simp [getItemById, hid, hidx]
  · intro hnone
    simp [getItemById, storeGet, hnone, hid, hidx]
  · simp [getItemById, hid, hidx]
  · intro hstatus
    simp [getItemById, hid, hidx, hstatus]

/-- Witness for C9. -/
theorem C9_witness :
    getItemById true "a" "orders" (GetReply.errStatus none "boom") =
      GetResult.internalServerError
        "Failed to fetch item with ID [a] from index [orders]: boom" := by
  have h := (C9_get_item_by_id_not_found "a" "orders" "boom" none ⟨[]⟩
      (by decide) (by decide)).2.2.2 (by simp)
  simpa using h

/-- C3: when the filter carries a non-blank string value under the
reserved key `id`, the query produced by either construction block can
only match a document whose identity is that very id, whatever other
fields the filter carries and however the store evaluates term clauses. -/
theorem C3_id_filter_matches_only_that_id :
    ∀ (filter : List (String × Json)) (s : String) (q : EsQuery),
      filter.lookup "id" = some (Json.str s) →
      isBlank s = false →
      (buildEsQueryUpdate filter = QueryBuildResult.ok q →
        ∀ (tev : String → Json → String → Bool) (docId : String),
          docMatches tev docId q = true → docId = s) ∧
      (buildEsQueryDelete filter = QueryBuildResult.ok q →
        ∀ (tev : String → Json → String → Bool) (docId : String),
          docMatches tev docId q = true → docId = s) := by
  intro filter s q hlook hblank
  have hmain : buildEsQueryUpdate filter = QueryBuildResult.ok q →
      ∀ (tev : String → Json → String → Bool) (docId : String),
        docMatches tev docId q = true → docId = s := by
    intro hbuild tev docId hmatch
    have hne : filter ≠ [] := ne_nil_of_lookup_eq_some hlook
    have hlen : ¬ (filter.length = 0) := by
      simpa [List.length_eq_zero] using hne
    simp only [buildEsQueryUpdate, hlook, hblank, if_neg hlen] at hbuild
    cases hrest : (filter.filter (fun kv => kv.1 != "id" && !kv.2.isNull)).map
        (fun kv => EsQuery.term kv.1 kv.2) with
    | nil =>
      rw [hrest] at hbuild
      simp at hbuild
      rw [← hbuild] at hmatch
      simp [docMatches, List.contains] at hmatch
      exact hmatch
    | cons a t =>
      rw [hrest] at hbuild
      simp at hbuild
      rw [← hbuild] at hmatch
      simp [docMatches, docMatchesAll, List.contains] at hmatch
      exact hmatch.1
  refine ⟨hmain, ?_⟩
  rw [buildEsQuery_delete_eq_update]
  exact hmain

/-- Witness for C3 at the filter `{id: "abc", x: 1}` and a term evaluator
that matches everything: the built query is the conjunction of the
identity clause and the term clause, and a document matching it has
identity `"abc"`. -/
theorem C3_witness :
    buildEsQueryUpdate [("id", Json.str "abc"), ("x", Json.num 1)] =
      QueryBuildResult.ok
        (EsQuery.boolMust [EsQuery.ids ["abc"], EsQuery.term "x" (Json.num 1)]) ∧
    (docMatches (fun _ _ _ => true) "zzz"
        (EsQuery.boolMust [EsQuery.ids ["abc"], EsQuery.term "x" (Json.num 1)]) = true →
      ("zzz" : String) = "abc") :=
  ⟨rfl,
    ((C3_id_filter_matches_only_that_id [("id", Json.str "abc"), ("x", Json.num 1)]
        "abc"
        (EsQuery.boolMust [EsQuery.ids ["abc"], EsQuery.term "x" (Json.num 1)])
        rfl (by decide)).1 rfl (fun _ _ _ => true) "zzz")⟩

/-- C5: for a non-empty filter without an `id` key, the produced query is
the bare term clause when exactly one entry is non-null, a `bool.must`
conjunction with one term clause per non-null entry when several are, and
the invalid-input rejection when zero clauses result; the zero-clause
rejection also covers filters whose only candidate id is blank. -/
theorem C5_no_id_filter_shape :
    ∀ filter : List (String × Json),
      filter ≠ [] →
      ((∀ kv ∈ filter, kv.1 ≠ "id") →
        (∀ k v, filter.filter (fun kv => !kv.2.isNull) = [(k, v)] →
          buildEsQueryUpdate filter = QueryBuildResult.ok (EsQuery.term k v) ∧
          buildEsQueryDelete filter = QueryBuildResult.ok (EsQuery.term k v)) ∧
        (2 ≤ (filter.filter (fun kv => !kv.2.isNull)).length →
          buildEsQueryUpdate filter =
            QueryBuildResult.ok (EsQuery.boolMust
              ((filter.filter (fun kv => !kv.2.isNull)).map
                (fun kv => EsQuery.term kv.1 kv.2))) ∧
          ((filter.filter (fun kv => !kv.2.isNull)).map
              (fun kv => EsQuery.term kv.1 kv.2)).length =
            (filter.filter (fun kv => !kv.2.isNull)).length ∧
          buildEsQueryDelete filter =
            QueryBuildResult.ok (EsQuery.boolMust
              ((filter.filter (fun kv => !kv.2.isNull)).map
                (fun kv => EsQuery.term kv.1 kv.2)))) ∧
        (filter.filter (fun kv => !kv.2.isNull) = [] →
          buildEsQueryUpdate filter = QueryBuildResult.invalidInput ∧
          buildEsQueryDelete filter = QueryBuildResult.invalidInput ∧
          (∀ (initialized : Bool) (updateData : List (String × Json))
              (indexName : String) (reply : StoreReply),
            isBlank indexName = false → updateData.length ≠ 0 →
            updateByFilter initialized filter updateData indexName reply =
              (OpResult.badRequest "Provided filter fields are all empty !!", []) ∧
            deleteByFilter initialized filter indexName reply =
              (OpResult.badRequest "Provided filter fields are all empty !!", [])))) ∧
      ((∀ kv ∈ filter, kv.1 = "id" ∨ kv.2 = Json.null) →
        (∀ s, filter.lookup "id" = some (Json.str s) → isBlank s = true) →
        buildEsQueryUpdate filter = QueryBuildResult.invalidInput ∧
        buildEsQueryDelete filter = QueryBuildResult.invalidInput) := by
  intro filter hne
  have hlen : ¬ (filter.length = 0) := by
    simpa [List.length_eq_zero] using hne
  constructor
  · intro hnoid
    have hlookup : filter.lookup "id" = none :=
      lookup_eq_none_of_keys filter "id" hnoid
    have hfilter : filter.filter (fun kv => kv.1 != "id" && !kv.2.isNull) =
        filter.filter (fun kv => !kv.2.isNull) := by
      apply List.filter_congr
      intro kv hkv
      have : (kv.1 != "id") = true := by
        simpa using hnoid kv hkv
      simp [this]
    refine ⟨?_, ?_, ?_⟩
    · intro k v hone
      have hu : buildEsQueryUpdate filter = QueryBuildResult.ok (EsQuery.term k v) := by
        simp only [buildEsQueryUpdate, hlookup, hfilter, hone, if_neg hlen]
        rfl
      exact ⟨hu, by rw [buildEsQuery_delete_eq_update]; exact hu⟩
    · intro htwo
      obtain ⟨a, t, hat⟩ : ∃ a t, filter.filter (fun kv => !kv.2.isNull) = a :: t := by
        cases hc : filter.filter (fun kv => !kv.2.isNull) with
        | nil => rw [hc] at htwo; simp at htwo
        | cons a t => exact ⟨a, t, rfl⟩
      obtain ⟨b, t2, hbt⟩ : ∃ b t2, t = b :: t2 := by
        cases ht : t with
        | nil =>
          rw [hat, ht] at htwo
          simp at htwo
        | cons b t2 => exact ⟨b, t2, rfl⟩
      have hu : buildEsQueryUpdate filter =
          QueryBuildResult.ok (EsQuery.boolMust
            ((filter.filter (fun kv => !kv.2.isNull)).map
              (fun kv => EsQuery.term kv.1 kv.2))) := by
        simp only [buildEsQueryUpdate, hlookup, hfilter, if_neg hlen]
        rw [hat, hbt]
        simp
      refine ⟨hu, by simp, by rw [buildEsQuery_delete_eq_update]; exact hu⟩
    · intro hzero
      have hu : buildEsQueryUpdate filter = QueryBuildResult.invalidInput := by
        simp only [buildEsQueryUpdate, hlookup, hfilter, hzero, if_neg hlen]
        rfl
      have hd : buildEsQueryDelete filter = QueryBuildResult.invalidInput := by
        rw [buildEsQuery_delete_eq_update]; exact hu
      refine ⟨hu, hd, ?_⟩
      intro initialized updateData indexName reply hidx2 hupd2
      constructor
      · simp [updateByFilter, hidx2, hupd2, hu]
      · simp [deleteByFilter, hidx2, hd]
  · intro hall hblankid
    have hzero : filter.filter (fun kv => kv.1 != "id" && !kv.2.isNull) = [] := by
      rw [List.filter_eq_nil_iff]
      intro kv hkv
      rcases hall kv hkv with hid | hnull
      · simp [hid]
      · simp [hnull, Json.isNull]
    have hid : (match filter.lookup "id" with
        | some (Json.str s) => if isBlank s = false then [EsQuery.ids [s]] else []
        | _ => []) = ([] : List EsQuery) := by
      cases hl : filter.lookup "id" with
      | none => rfl
      | some v =>
        cases v with
        | str s =>
          have := hblankid s hl
          simp [this]
        | null => rfl
        | boolean b => rfl
        | num n => rfl
        | arr xs => rfl
        | obj fs => rfl
    have hu : buildEsQueryUpdate filter = QueryBuildResult.invalidInput := by
      simp only [buildEsQueryUpdate, if_neg hlen, hid, hzero]
      simp
    exact ⟨hu, by rw [buildEsQuery_delete_eq_update]; exact hu⟩

/-- Witness for C5 at the filters `{status: "active"}` (single),
`{status: "active", name: "n"}` (conjunction) and `{status: null}` (all
null). -/
theorem C5_witness :
    buildEsQueryUpdate [("status", Json.str "active")] =
      QueryBuildResult.ok (EsQuery.term "status" (Json.str "active")) ∧
    buildEsQueryUpdate [("status", Json.str "active"), ("name", Json.str "n")] =
      QueryBuildResult.ok (EsQuery.boolMust
        [EsQuery.term "status" (Json.str "active"),
          EsQuery.term "name" (Json.str "n")]) ∧
    buildEsQueryUpdate [("status", Json.null)] = QueryBuildResult.invalidInput := by
  have hw1 := ((C5_no_id_filter_shape [("status", Json.str "active")]
      (List.cons_ne_nil _ _)).1 (by simp)).1 "status" (Json.str "active")
      (by simp [Json.isNull])
  have hw2 := ((C5_no_id_filter_shape
      [("status", Json.str "active"), ("name", Json.str "n")]
      (List.cons_ne_nil _ _)).1 (by simp)).2.1 (by simp [Json.isNull])
  have hw3 := ((C5_no_id_filter_shape [("status", Json.null)]
      (List.cons_ne_nil _ _)).1 (by simp)).2.2 (by simp [Json.isNull])
  refine ⟨hw1.1, ?_, hw3.1⟩
  have := hw2.1
  simpa [Json.isNull] using this

/-- Looking up a key absent from the front part of an append falls through
to the back part. -/
theorem lookup_append_of_eq_none {β : Type} (l1 l2 : List (String × β)) (k : String)
    (h : l1.lookup k = none) : (l1 ++ l2).lookup k = l2.lookup k := by
  induction l1 with
  | nil => rfl
  | cons kv rest ih =>
    obtain ⟨k1, v1⟩ := kv
    by_cases hk : (k == k1) = true
    · simp only [List.lookup, hk] at h
      exact Option.noConfusion h
    · have hk2 : (k == k1) = false := by
        cases hbe : (k == k1) with
        | true => exact absurd hbe hk
        | false => rfl
      simp only [List.lookup, hk2] at h
      simp only [List.cons_append, List.lookup, hk2]
      exact ih h

/-- Folding `objSet` over entries whose keys are fresh for the accumulator
and mutually distinct appends them in order. -/
theorem foldl_objSet_fresh :
    ∀ (doc acc : List (String × Json)),
      (doc.map Prod.fst).Nodup →
      (∀ kv ∈ doc, ∀ p ∈ acc, p.1 ≠ kv.1) →
      doc.foldl (fun a kv => objSet a kv.1 kv.2) acc = acc ++ doc := by
  intro doc
  induction doc with
  | nil => intro acc _ _; simp
  | cons kv rest ih =>
    intro acc hnodup hfresh
    obtain ⟨k, v⟩ := kv
    have hacc : objSet acc k v = acc ++ [(k, v)] :=
      objSet_append acc k v
        (fun p hp => hfresh (k, v) (List.mem_cons_self _ _) p hp)
    simp only [List.foldl_cons]
    rw [hacc, ih (acc ++ [(k, v)])]
    · simp
    · exact (List.nodup_cons.mp (by simpa using hnodup)).2
    · intro kv2 hkv2 p hp
      rcases List.mem_append.mp hp with hpacc | hpk
      · exact hfresh kv2 (List.mem_cons_of_mem _ hkv2) p hpacc
      · rcases List.mem_singleton.mp hpk with rfl
        have hknotin : k ∉ rest.map Prod.fst :=
          (List.nodup_cons.mp (by simpa using hnodup)).1
        intro he
        apply hknotin
        rw [show k = kv2.1 from he]
        exact List.mem_map_of_mem Prod.fst hkv2

/-- C8 counterexample: a document that itself carries an `id` field breaks
the round trip — after indexing it under the store-chosen identity `abc`,
fetching it back yields an item whose `id` field is the document's own
`"mine"`, not the returned identity `"abc"`: the object spread
`{ id: response._id, ...dto }` lets the source field overwrite the
store-assigned identity. -/
theorem C8_counterexample_id_field_overwrites :
    indexDocument true "orders" [("id", Json.str "mine")] ⟨[]⟩ "abc" =
      IndexResult.indexed "abc" ⟨[("abc", [("id", Json.str "mine")])]⟩ ∧
    getItemById true "abc" "orders"
        (storeGet ⟨[("abc", [("id", Json.str "mine")])]⟩ "abc") =
      GetResult.item [("id", Json.str "mine")] ∧
    ("mine" : String) ≠ "abc" := by
  refine ⟨rfl, rfl, by decide⟩

/-- C8 (amended): for every document that does not itself contain an `id`
field (and has no duplicate keys), indexing it and fetching it back under
the identity the store assigned yields a non-null item equal to the
original fields preceded by an `id` field holding that identity. -/
theorem C8_amended_round_trip :
    ∀ (st : EsStore) (document : List (String × Json)) (indexName docId : String),
      isBlank indexName = false → isBlank docId = false →
      st.docs.lookup docId = none →
      (∀ kv ∈ document, kv.1 ≠ "id") →
      (document.map Prod.fst).Nodup →
      ∀ st2 : EsStore,
        indexDocument true indexName document st docId =
          IndexResult.indexed docId st2 →
        getItemById true docId indexName (storeGet st2 docId) =
          GetResult.item (("id", Json.str docId) :: document) := by
  intro st document indexName docId hidx hdoc hfresh hnoid hnodup st2 hindexed
  have hst2 : st2 = storeIndexDocument st docId document := by
    have : IndexResult.indexed docId (storeIndexDocument st docId document) =
        IndexResult.indexed docId st2 := by
      simpa [indexDocument] using hindexed
    cases this
    rfl
    
  subst hst2
  have hget : storeGet (storeIndexDocument st docId document) docId =
      GetReply.found docId document := by
    unfold storeGet storeIndexDocument
    rw [lookup_append_of_eq_none st.docs [(docId, document)] docId hfresh]
    simp [List.lookup]
  rw [hget]
  have hitem : mkItemWithId docId document =
      ("id", Json.str docId) :: document := by
    unfold mkItemWithId
    rw [foldl_objSet_fresh document [("id", Json.str docId)] hnodup]
    · rfl
    · intro kv hkv p hp
      rcases List.mem_singleton.mp hp with rfl
      exact fun he => hnoid kv hkv he.symm
  simp [getItemById, hdoc, hidx, hitem]

/-- Witness for C8 (amended) at the document `{name: "n"}` indexed into an
empty store under the identity `abc`. -/
theorem C8_amended_witness :
    getItemById true "abc" "orders"
        (storeGet ⟨[("abc", [("name", Json.str "n")])]⟩ "abc") =
      GetResult.item [("id", Json.str "abc"), ("name", Json.str "n")] :=
  C8_amended_round_trip ⟨[]⟩ [("name", Json.str "n")] "orders" "abc"
    (by decide) (by decide) rfl
    (by
      intro kv hkv
      rcases List.mem_singleton.mp hkv with rfl
      decide)
    (by simp)
    ⟨[("abc", [("name", Json.str "n")])]⟩ rfl

end DemoStore
